import Mathlib

/-!
Verification of the `virtual-fixtures` mechanism-manager core.

The C++ sources embedded here:
  * `mechanism_manager/src/mechanism_manager_interface.cpp`
      - `VirtualMechanismAutom` (the per-VM activation automaton)
      - `MechanismManagerInterface::ReadConfig` (config validation)
  * `mechanism_manager/src/mechanism_manager.cpp`
      - `MechanismManager::Update` (the three overloads: the mixing of the
        virtual mechanisms into one force, and the legacy active-guide gate)
  * `toolbox/include/toolbox/utilities.h`
      - `SharedData::ReadTryLock`, `Delete`, `PushBack`, `CropData`

Doubles are modelled as rationals where every operation is exact
(comparisons, thresholds) and as reals where `exp`/`sqrt` appear.
A second, `Option`-valued reading of the few operations whose IEEE result
can be NaN or is undefined (division by zero, a missing return statement)
makes the definedness of those paths explicit.
-/

namespace VirtualFixtures

/-! ## Activation automaton (`mechanism_manager_interface.cpp`, lines 11-48)

`VirtualMechanismAutom` keeps one of three states; `Step` is the
`if(true)` (three-state) branch of the source, a pure function of the
previous state and the scalar inputs. -/

/-- The `state_` field of `VirtualMechanismAutom`: `MANUAL`, `PREAUTO`, `AUTO`. -/
inductive AutomState where
  | MANUAL : AutomState
  | PREAUTO : AutomState
  | AUTO : AutomState
deriving DecidableEq, Repr

/-- `VirtualMechanismAutom::Step` (three-state branch, lines 23-40):
from `MANUAL`, move to `PREAUTO` when `phase_dot >= phase_dot_preauto_th_`;
from `PREAUTO`, move to `AUTO` when `phase_dot <= phase_dot_ref + phase_dot_th_`;
from `AUTO`, move to `MANUAL` when `collision_detected`. -/
def stepAutom (preauto_th th : ℚ) (phase_dot phase_dot_ref : ℚ)
    (collision_detected : Bool) : AutomState → AutomState
  | .MANUAL => if phase_dot ≥ preauto_th then .PREAUTO else .MANUAL
  | .PREAUTO => if phase_dot ≤ phase_dot_ref + th then .AUTO else .PREAUTO
  | .AUTO => if collision_detected then .MANUAL else .AUTO

/-- One tick's scalar inputs to `VirtualMechanismAutom::Step`. -/
structure AutomInput where
  phase_dot : ℚ
  phase_dot_ref : ℚ
  collision_detected : Bool
deriving DecidableEq, Repr

/-- The trace of states produced by repeatedly calling `Step`:
`runAutom pre th s inputs` lists the state before each step and after the
last one (length `inputs.length + 1`, head `s`). -/
def runAutom (preauto_th th : ℚ) (s : AutomState) :
    List AutomInput → List AutomState
  | [] => [s]
  | inp :: rest =>
      s :: runAutom preauto_th th
        (stepAutom preauto_th th inp.phase_dot inp.phase_dot_ref
          inp.collision_detected s) rest

/-! ## Interface configuration (`mechanism_manager_interface.cpp`, lines 148-164) -/

/-- The three scalar options `MechanismManagerInterface::ReadConfig` reads from
the `mechanism_manager_interface` YAML node. -/
structure InterfaceConfig where
  position_dim : ℕ
  phase_dot_th : ℚ
  phase_dot_preauto_th : ℚ
deriving DecidableEq, Repr

/-- `MechanismManagerInterface::ReadConfig`: `none` stands for a missing
`mechanism_manager_interface` node (the function returns `false` and the
constructor throws).  The three `assert`s of lines 156-158 —
`position_dim_ == 1 || position_dim_ == 2`, `phase_dot_th_ > 0.0`,
`phase_dot_preauto_th_ > phase_dot_th_` — abort construction when violated,
modelled as `none`. -/
def ReadConfig (node : Option InterfaceConfig) : Option InterfaceConfig :=
  match node with
  | none => none
  | some c =>
      if (c.position_dim = 1 ∨ c.position_dim = 2) ∧
          0 < c.phase_dot_th ∧
          c.phase_dot_th < c.phase_dot_preauto_th then
        some c
      else
        none

/-! ## Legacy active-guide gate (`mechanism_manager.cpp`, lines 150-168)

The `Update(..., force_applied)` overload: per VM `i`, set the curve active
exactly when `force_applied == false && scales_(i) > scale_threshold_ &&
use_active_guide_[i] == true`.  `scales_(i)` still holds the value computed
by the previous tick, and `scale_threshold_` was fixed by the constructor
(line 117). -/

/-- The per-VM data the gate reads: the scale left by the previous tick and
the `use_active_guide` flag from the configuration. -/
structure GuideEntry where
  scale : ℚ
  use_active_guide : Bool
deriving DecidableEq, Repr

/-- `scale_threshold_ = 1.0/static_cast<double>(vm_nb_) + 0.2`
(`mechanism_manager.cpp`, line 117), with `vm_nb_` the number of VMs when
the manager was built. -/
def scaleThreshold (vm_nb : ℕ) : ℚ := 1 / (vm_nb : ℚ) + 2/10

/-- The loop of `MechanismManager::Update(..., force_applied)`
(lines 152-166): the `active_guide_` flags it leaves behind (`setActive`
receives the same boolean). -/
def activeGuideGate (force_applied : Bool) (threshold : ℚ)
    (entries : List GuideEntry) : List Bool :=
  entries.map fun e =>
    decide (force_applied = false ∧ e.scale > threshold ∧
      e.use_active_guide = true)

/-! ## Eigen container helpers (`toolbox/utilities.h`, lines 209-229)

`Eigen::VectorXd` is modelled as `List ℚ`. -/

/-- `Delete(idx, vect)` (lines 209-214): with `n = vect.size()-idx-1`,
`vect.segment(idx,n) = vect.tail(n)` copies the last `n` entries onto
positions `idx … idx+n-1`, then `conservativeResize(vect.size()-1)` keeps
the first `size-1` entries. -/
def Delete (idx : ℕ) (vect : List ℚ) : List ℚ :=
  let n := vect.length - idx - 1
  let assigned := (List.range vect.length).map fun i =>
    if idx ≤ i ∧ i < idx + n then vect.getD (vect.length - n + (i - idx)) 0
    else vect.getD i 0
  assigned.take (vect.length - 1)

/-- `PushBack(value, vect)` (lines 216-221): grow by one and write `value`
at the old size. -/
def PushBack (value : ℚ) (vect : List ℚ) : List ℚ := vect ++ [value]

/-! ## Mixing of the virtual mechanisms (`mechanism_manager.cpp`, 170-244)

`MechanismManager::Update(robot_position, robot_velocity, dt, f_out)` runs
two passes over `vm_vector_`: the first stores a raw scale per VM and their
sum, the second normalises the scales according to `prob_mode_` and
accumulates the output force. -/

/-- The queries `Update` makes of `vm_vector_[i]` after
`vm_vector_[i]->Update(...)` has advanced the curve: `getProbability` and
`getDistance` at the measured position, `getState`, `getStateDot`, `getK`,
`getB`.  The curve itself (GMR fitting) is an external collaborator. -/
structure VirtualMechanism (D : ℕ) where
  getProbability : (Fin D → ℝ) → ℝ
  getDistance : (Fin D → ℝ) → ℝ
  getState : Fin D → ℝ
  getStateDot : Fin D → ℝ
  getK : ℝ
  getB : ℝ

/-- `prob_mode_t`: `HARD`, `POTENTIAL` or `SOFT`. -/
inductive ProbMode where
  | HARD : ProbMode
  | POTENTIAL : ProbMode
  | SOFT : ProbMode
deriving DecidableEq, Repr

/-- First pass (lines 184-197): the raw scale stored in `scales_(i)`. -/
noncomputable def rawScale {D : ℕ} (mode : ProbMode)
    (vm : VirtualMechanism D) (robot_position : Fin D → ℝ) : ℝ :=
  match mode with
  | .HARD => vm.getProbability robot_position
  | .POTENTIAL => Real.exp (-10 * vm.getDistance robot_position)
  | .SOFT => vm.getProbability robot_position

/-- Second pass (lines 209-222): the conditional scale written back into
`scales_(i)` from the raw scale `s` and `sum_`. -/
noncomputable def condScale {D : ℕ} (mode : ProbMode)
    (vm : VirtualMechanism D) (robot_position : Fin D → ℝ)
    (s sum : ℝ) : ℝ :=
  match mode with
  | .HARD => s / sum
  | .POTENTIAL => s
  | .SOFT => Real.exp (-10 * vm.getDistance robot_position) * s / sum

/-- The contents of `scales_` after both passes of one tick. -/
noncomputable def tickScales {D : ℕ} (mode : ProbMode)
    (vms : List (VirtualMechanism D)) (robot_position : Fin D → ℝ) :
    List ℝ :=
  let sum := (vms.map fun vm => rawScale mode vm robot_position).sum
  vms.map fun vm =>
    condScale mode vm robot_position (rawScale mode vm robot_position) sum

/-- `f_out` accumulated by the second loop (lines 204-235):
`f_out += scales_(i) * (getK()*(vm_state_[i] − robot_position) +
getB()*(vm_state_dot_[i] − robot_velocity))`. -/
noncomputable def tickForce {D : ℕ} (mode : ProbMode)
    (vms : List (VirtualMechanism D))
    (robot_position robot_velocity : Fin D → ℝ) : Fin D → ℝ :=
  fun d =>
    (List.zipWith
      (fun vm scale => scale *
        (vm.getK * (vm.getState d - robot_position d) +
          vm.getB * (vm.getStateDot d - robot_velocity d)))
      vms (tickScales mode vms robot_position)).sum

/-- `condScale` with IEEE definedness made explicit: the source divides by
`sum_` unconditionally, and when `sum_ == 0` the division (`0/0`, since all
raw scales are then 0 for non-negative scores) is NaN.  A zero denominator
is modelled as `none`; every other path agrees with `condScale`. -/
noncomputable def condScaleChecked {D : ℕ} (mode : ProbMode)
    (vm : VirtualMechanism D) (robot_position : Fin D → ℝ)
    (s sum : ℝ) : Option ℝ :=
  match mode with
  | .HARD => if sum = 0 then none else some (s / sum)
  | .POTENTIAL => some s
  | .SOFT =>
      if sum = 0 then none
      else some (Real.exp (-10 * vm.getDistance robot_position) * s / sum)

/-- `scales_` after both passes, `none` when any division was undefined. -/
noncomputable def tickScalesChecked {D : ℕ} (mode : ProbMode)
    (vms : List (VirtualMechanism D)) (robot_position : Fin D → ℝ) :
    Option (List ℝ) :=
  let sum := (vms.map fun vm => rawScale mode vm robot_position).sum
  vms.mapM fun vm =>
    condScaleChecked mode vm robot_position
      (rawScale mode vm robot_position) sum

/-- `f_out`, `none` when any weight was undefined (NaN contaminates the
accumulated force). -/
noncomputable def tickForceChecked {D : ℕ} (mode : ProbMode)
    (vms : List (VirtualMechanism D))
    (robot_position robot_velocity : Fin D → ℝ) :
    Option (Fin D → ℝ) :=
  (tickScalesChecked mode vms robot_position).map fun scales => fun d =>
    (List.zipWith
      (fun vm scale => scale *
        (vm.getK * (vm.getState d - robot_position d) +
          vm.getB * (vm.getStateDot d - robot_velocity d)))
      vms scales).sum

/-! ## `CropData` (`toolbox/utilities.h`, lines 231-249)

An `Eigen::MatrixXd` is modelled as a list of rows. -/

/-- `(row_b - row_a)` of two matrix rows. -/
def rowSub (b a : List ℝ) : List ℝ := List.zipWith (fun x y => x - y) b a

/-- Eigen's `.norm()`: the Euclidean norm of a row. -/
noncomputable def rowNorm (r : List ℝ) : ℝ :=
  Real.sqrt ((r.map fun x => x ^ 2).sum)

/-- `CropData(data, dt, dist_min)`: rebuild `data` from an empty matrix,
appending row `i` (for `0 ≤ i < rows-1`) when
`(data_tmp.row(i+1) - data_tmp.row(i)).norm() > dt*dist_min`; the returned
flag is `false` exactly when no row survived. -/
noncomputable def CropData (data : List (List ℝ)) (dt dist_min : ℝ) :
    List (List ℝ) × Bool :=
  let kept := (List.range (data.length - 1)).foldl
    (fun acc i =>
      if rowNorm (rowSub (data.getD (i + 1) []) (data.getD i [])) >
          dt * dist_min then
        acc ++ [data.getD i []]
      else acc) []
  (kept, if kept.length = 0 then false else true)

/-! ## `SharedData::ReadTryLock` (`toolbox/utilities.h`, lines 73-78) -/

/-- `SharedData<T>::ReadTryLock`: a deferred `unique_lock` on the recursive
mutex, then `if(guard.try_lock()) return obj_;`.  `lock_available` says
whether the try-lock can succeed at this call (no other thread holds
`mtx_`).  When it fails, control reaches the end of the non-void function
without any `return`, so the produced value is undefined — modelled as
`none`.  No "previous snapshot" is stored anywhere in the class. -/
def ReadTryLock {T : Type} (lock_available : Bool) (obj : T) : Option T :=
  if lock_available then some obj else none

end VirtualFixtures

namespace VirtualFixtures

/-! # Theorems -/

theorem runAutom_length (preauto_th th : ℚ) (s : AutomState)
    (inputs : List AutomInput) :
    (runAutom preauto_th th s inputs).length = inputs.length + 1 := by
  induction inputs generalizing s with
  | nil => rfl
  | cons inp rest ih => simp [runAutom, ih]

theorem runAutom_head (preauto_th th : ℚ) (s : AutomState)
    (inputs : List AutomInput) :
    (runAutom preauto_th th s inputs).getD 0 .MANUAL = s := by
  cases inputs <;> rfl

/-- Consecutive entries of the trace are related by `stepAutom` on the
corresponding input. -/
theorem runAutom_succ (preauto_th th : ℚ) (s : AutomState)
    (inputs : List AutomInput) (i : ℕ) (hi : i < inputs.length) :
    (runAutom preauto_th th s inputs).getD (i + 1) .MANUAL =
      stepAutom preauto_th th
        (inputs.getD i ⟨0, 0, false⟩).phase_dot
        (inputs.getD i ⟨0, 0, false⟩).phase_dot_ref
        (inputs.getD i ⟨0, 0, false⟩).collision_detected
        ((runAutom preauto_th th s inputs).getD i .MANUAL) := by
  induction inputs generalizing s i with
  | nil => simp at hi
  | cons inp rest ih =>
      cases i with
      | zero => cases rest <;> rfl
      | succ j =>
          have hj : j < rest.length := by simpa using hi
          simpa [runAutom] using ih _ j hj

/-- C5: with thresholds `phase_dot_preauto_th > phase_dot_th > 0` and any
`0 < δ < phase_dot_preauto_th − phase_dot_ref − phase_dot_th`, stepping the
automaton from `MANUAL` with `phase_dot = phase_dot_preauto_th + δ` yields
`PREAUTO` (not `AUTO`), and stepping once more with
`phase_dot = phase_dot_ref + phase_dot_th − δ` yields `AUTO`; no single step
from `MANUAL` ever yields `AUTO`. -/
theorem claim_C5_auto_in_two_steps (preauto_th th phase_dot_ref δ : ℚ)
    (cd1 cd2 : Bool) (hth : 0 < th) (hpre : th < preauto_th) (hδ : 0 < δ)
    (hδub : δ < preauto_th - phase_dot_ref - th) :
    stepAutom preauto_th th (preauto_th + δ) phase_dot_ref cd1 .MANUAL =
      .PREAUTO ∧
    stepAutom preauto_th th (phase_dot_ref + th - δ) phase_dot_ref cd2
      .PREAUTO = .AUTO ∧
    ∀ (pd pdr : ℚ) (cd : Bool),
      stepAutom preauto_th th pd pdr cd .MANUAL ≠ .AUTO := by
  refine ⟨?_, ?_, ?_⟩
  · have hge : preauto_th ≤ preauto_th + δ := by linarith
    simp [stepAutom, hge]
  · have hle : phase_dot_ref + th - δ ≤ phase_dot_ref + th := by linarith
    simp [stepAutom, hle]
  · intro pd pdr cd
    by_cases hge : pd ≥ preauto_th <;> simp [stepAutom, hge]

theorem claim_C5_witness :
    stepAutom 2 (1/2) (2 + 1) 0 false .MANUAL = .PREAUTO ∧
    stepAutom 2 (1/2) (0 + 1/2 - 1) 0 false .PREAUTO = .AUTO ∧
    stepAutom 2 (1/2) 5 0 true .MANUAL ≠ .AUTO :=
  ⟨(claim_C5_auto_in_two_steps 2 (1/2) 0 1 false false (by norm_num)
      (by norm_num) (by norm_num) (by norm_num)).1,
   (claim_C5_auto_in_two_steps 2 (1/2) 0 1 false false (by norm_num)
      (by norm_num) (by norm_num) (by norm_num)).2.1,
   (claim_C5_auto_in_two_steps 2 (1/2) 0 1 false false (by norm_num)
      (by norm_num) (by norm_num) (by norm_num)).2.2 5 0 true⟩

/-- C6: along any trace of steps, a change from `AUTO` to `MANUAL` can only
happen on a step whose `collision_detected` input was `true`; and a step of
an `AUTO` automaton with `collision_detected = false` stays `AUTO`. -/
theorem claim_C6_auto_exit_needs_collision (preauto_th th : ℚ)
    (s : AutomState) (inputs : List AutomInput) (i : ℕ)
    (hi : i < inputs.length)
    (hauto : (runAutom preauto_th th s inputs).getD i .MANUAL = .AUTO)
    (hmanual :
      (runAutom preauto_th th s inputs).getD (i + 1) .MANUAL = .MANUAL) :
    (inputs.getD i ⟨0, 0, false⟩).collision_detected = true ∧
    ∀ (pd pdr : ℚ), stepAutom preauto_th th pd pdr false .AUTO = .AUTO := by
  refine ⟨?_, fun pd pdr => rfl⟩
  have h := runAutom_succ preauto_th th s inputs i hi
  rw [hauto, hmanual] at h
  by_cases hcd : (inputs.getD i ⟨0, 0, false⟩).collision_detected
  · exact hcd
  · rw [Bool.not_eq_true] at hcd
    rw [hcd] at h
    simp [stepAutom] at h

theorem claim_C6_witness :
    (([(⟨0, 0, true⟩ : AutomInput)].getD 0 ⟨0, 0, false⟩).collision_detected
      = true) ∧
    stepAutom 2 1 3 4 false .AUTO = .AUTO :=
  ⟨(claim_C6_auto_exit_needs_collision 2 1 .AUTO [⟨0, 0, true⟩] 0
      (by decide) rfl rfl).1,
   (claim_C6_auto_exit_needs_collision 2 1 .AUTO [⟨0, 0, true⟩] 0
      (by decide) rfl rfl).2 3 4⟩

/-- C8 counterexample: `position_dim = 3` with valid thresholds
(`0 < phase_dot_th < phase_dot_preauto_th`) does not pass
`MechanismManagerInterface::ReadConfig`: the assert
`position_dim_ == 1 || position_dim_ == 2` (line 156) fires, so
construction does not succeed, contradicting the claim for the
configured value 3. -/
theorem claim_C8_counterexample :
    ReadConfig (some ⟨3, 1, 2⟩) = none ∧
    (0 : ℚ) < 1 ∧ (1 : ℚ) < 2 := by
  refine ⟨?_, by norm_num, by norm_num⟩
  simp [ReadConfig]

/-- C8 (amended): `ReadConfig` accepts a present configuration exactly when
`position_dim ∈ {1, 2}` (not 3) and `0 < phase_dot_th <
phase_dot_preauto_th`, fixing the task-space dimension to the configured
value; a missing node fails. -/
theorem claim_C8_config_accepts_dim_1_2 (c : InterfaceConfig) :
    (ReadConfig (some c) = some c ↔
      (c.position_dim = 1 ∨ c.position_dim = 2) ∧
        0 < c.phase_dot_th ∧
        c.phase_dot_th < c.phase_dot_preauto_th) ∧
    ReadConfig none = none := by
  refine ⟨?_, rfl⟩
  by_cases hcond : (c.position_dim = 1 ∨ c.position_dim = 2) ∧
      0 < c.phase_dot_th ∧ c.phase_dot_th < c.phase_dot_preauto_th <;>
    simp [ReadConfig, hcond]

/-- C7: through the legacy `Update(..., force_applied)` overload, VM `i` is
set active exactly when `force_applied` is false, its scale from the
previous tick exceeds `1/N + 0.2` (with `N` the VM count used to build the
threshold), and its `use_active_guide` flag is set. -/
theorem claim_C7_active_guide_gate (force_applied : Bool) (vm_nb : ℕ)
    (entries : List GuideEntry) (i : ℕ) (hi : i < entries.length) :
    (activeGuideGate force_applied (scaleThreshold vm_nb) entries).getD i
        false = true ↔
      (force_applied = false ∧
        (entries.getD i ⟨0, false⟩).scale > 1 / (vm_nb : ℚ) + 2/10 ∧
        (entries.getD i ⟨0, false⟩).use_active_guide = true) := by
  have hm : i < (activeGuideGate force_applied (scaleThreshold vm_nb)
      entries).length := by
    simpa [activeGuideGate] using hi
  rw [List.getD_eq_getElem _ _ hm, List.getD_eq_getElem _ _ hi]
  simp [activeGuideGate, scaleThreshold]

theorem claim_C7_witness :
    ((activeGuideGate false (scaleThreshold 2)
        [(⟨1, true⟩ : GuideEntry)]).getD 0 false = true ↔
      (false = false ∧
        (([(⟨1, true⟩ : GuideEntry)]).getD 0 ⟨0, false⟩).scale >
          1 / (2 : ℚ) + 2/10 ∧
        (([(⟨1, true⟩ : GuideEntry)]).getD 0 ⟨0, false⟩).use_active_guide =
          true)) :=
  claim_C7_active_guide_gate false 2 [⟨1, true⟩] 0 (by decide)

/-- The segment/tail/resize dance of `Delete` removes exactly the entry at
`idx`. -/
theorem Delete_eq_take_append_drop (idx : ℕ) (vect : List ℚ)
    (h : idx < vect.length) :
    Delete idx vect = vect.take idx ++ vect.drop (idx + 1) := by
  apply List.ext_getElem
  · simp only [Delete, List.length_take, List.length_map, List.length_range,
      List.length_append, List.length_drop]
    omega
  · intro i h1 h2
    have hi : i < vect.length - 1 := by
      simpa [Delete] using h1
    have hmap : i < ((List.range vect.length).map fun j =>
        if idx ≤ j ∧ j < idx + (vect.length - idx - 1) then
          vect.getD (vect.length - (vect.length - idx - 1) + (j - idx)) 0
        else vect.getD j 0).length := by
      simp; omega
    simp only [Delete, List.getElem_take, List.getElem_map,
      List.getElem_range]
    by_cases hcase : i < idx
    · have hcond : ¬(idx ≤ i ∧ i < idx + (vect.length - idx - 1)) := by
        omega
      rw [if_neg hcond, List.getD_eq_getElem _ _ (by omega : i < vect.length)]
      rw [List.getElem_append_left (by simp [List.length_take]; omega)]
      simp [List.getElem_take]
    · have hcond : idx ≤ i ∧ i < idx + (vect.length - idx - 1) := by omega
      rw [if_pos hcond]
      have hidx : vect.length - (vect.length - idx - 1) + (i - idx) = i + 1 := by
        omega
      rw [hidx, List.getD_eq_getElem _ _ (by omega : i + 1 < vect.length)]
      rw [List.getElem_append_right (by simp [List.length_take]; omega)]
      simp only [List.getElem_drop, List.length_take]
      congr 1
      omega

/-- C9: `Delete` after `PushBack` at the appended index restores the
original vector; in general, for `idx < n`, `Delete` removes exactly the
entry at `idx`, keeping the remaining entries in order and shrinking the
size by one. -/
theorem claim_C9_pushback_delete (vect : List ℚ) (value : ℚ) (idx : ℕ)
    (h : idx < vect.length) :
    Delete vect.length (PushBack value vect) = vect ∧
    (Delete idx vect).length = vect.length - 1 ∧
    Delete idx vect = vect.take idx ++ vect.drop (idx + 1) := by
  refine ⟨?_, ?_, Delete_eq_take_append_drop idx vect h⟩
  · have h' : vect.length < (PushBack value vect).length := by
      simp [PushBack]
    rw [Delete_eq_take_append_drop _ _ h']
    simp [PushBack, List.take_left]
  · rw [Delete_eq_take_append_drop idx vect h]
    simp only [List.length_append, List.length_take, List.length_drop]
    omega

theorem claim_C9_witness :
    Delete 3 (PushBack 4 [1, 2, 3]) = [1, 2, 3] ∧
    (Delete 1 [(1 : ℚ), 2, 3]).length = 2 ∧
    Delete 1 [(1 : ℚ), 2, 3] =
      [(1 : ℚ), 2, 3].take 1 ++ [(1 : ℚ), 2, 3].drop 2 :=
  claim_C9_pushback_delete [1, 2, 3] 4 1 (by decide)

theorem zipWith_map_self {α β γ : Type} (f : α → β → γ) (g : α → β)
    (l : List α) :
    List.zipWith f l (l.map g) = l.map fun a => f a (g a) := by
  induction l with
  | nil => rfl
  | cons a t ih => simp [ih]

/-- C3: in `POTENTIAL` mode each scale is `exp(-10 * getDistance(pos))`,
untouched by the normalisation pass, and the force is the scale-weighted
sum of the per-VM spring-damper terms over all VMs. -/
theorem claim_C3_potential_mode {D : ℕ} (vms : List (VirtualMechanism D))
    (pos vel : Fin D → ℝ) :
    tickScales .POTENTIAL vms pos =
      vms.map (fun vm => Real.exp (-10 * vm.getDistance pos)) ∧
    tickForce .POTENTIAL vms pos vel = fun d =>
      (vms.map fun vm => Real.exp (-10 * vm.getDistance pos) *
        (vm.getK * (vm.getState d - pos d) +
          vm.getB * (vm.getStateDot d - vel d))).sum := by
  have hscales : tickScales .POTENTIAL vms pos =
      vms.map (fun vm => Real.exp (-10 * vm.getDistance pos)) := by
    simp [tickScales, condScale, rawScale]
  refine ⟨hscales, ?_⟩
  funext d
  show (List.zipWith _ vms (tickScales .POTENTIAL vms pos)).sum = _
  rw [hscales, zipWith_map_self]

/-- C2, at the failing input: in `HARD` mode with one VM whose probability
is 0 at the measured position (so `sum_ == 0`), the unguarded
`scales_(i) = scales_(i)/sum_` divides `0/0`; the weight is undefined (IEEE
NaN) and so is the accumulated force — not the zero vector. -/
theorem claim_C2_hard_zero_sum_undefined :
    tickForceChecked .HARD
      [({ getProbability := fun _ => 0, getDistance := fun _ => 1,
          getState := fun _ => 0, getStateDot := fun _ => 0,
          getK := 1, getB := 1 } : VirtualMechanism 1)]
      (fun _ => 0) (fun _ => 0) = none := by
  simp [tickForceChecked, tickScalesChecked, condScaleChecked, rawScale,
    List.mapM, List.mapM.loop]

/-- C4, at the failing input: when the try-lock is contended,
`SharedData::ReadTryLock` reaches the end of a non-void function without a
`return` statement, so the read is undefined rather than "the last
successfully-read value"; only the uncontended path returns `obj_`. -/
theorem claim_C4_contended_read_undefined :
    ReadTryLock false (42 : ℚ) = none ∧
    ReadTryLock true (42 : ℚ) = some 42 :=
  ⟨rfl, rfl⟩

/-- C1 counterexample: one VM in `SOFT` mode with probability 1 and
distance 1 at the measured position has a positive raw score, yet the
normalised scales sum to `exp(-10) ≠ 1`: `SOFT` mode does not restore a
partition of unity. -/
theorem claim_C1_counterexample :
    (0 : ℝ) < rawScale .SOFT
      ({ getProbability := fun _ => 1, getDistance := fun _ => 1,
         getState := fun _ => 0, getStateDot := fun _ => 0,
         getK := 1, getB := 1 } : VirtualMechanism 1) (fun _ => 0) ∧
    (tickScales .SOFT
      [({ getProbability := fun _ => 1, getDistance := fun _ => 1,
          getState := fun _ => 0, getStateDot := fun _ => 0,
          getK := 1, getB := 1 } : VirtualMechanism 1)]
      (fun _ => 0)).sum ≠ 1 := by
  constructor
  · show (0 : ℝ) < 1
    norm_num
  · simp [tickScales, condScale, rawScale]

/-- C1 (amended): with non-negative probabilities and distances and at
least one positive probability, the `HARD` scales are non-negative and sum
to exactly 1, while the `SOFT` scales are non-negative but only sum to at
most 1 (the distance factor `exp(-10*d_i)` re-scales each posterior). -/
theorem claim_C1_partition_of_unity {D : ℕ}
    (vms : List (VirtualMechanism D)) (pos : Fin D → ℝ)
    (hprob : ∀ vm ∈ vms, 0 ≤ vm.getProbability pos)
    (hdist : ∀ vm ∈ vms, 0 ≤ vm.getDistance pos)
    (hsome : ∃ vm ∈ vms, 0 < vm.getProbability pos) :
    (∀ s ∈ tickScales .HARD vms pos, 0 ≤ s) ∧
    (tickScales .HARD vms pos).sum = 1 ∧
    (∀ s ∈ tickScales .SOFT vms pos, 0 ≤ s) ∧
    (tickScales .SOFT vms pos).sum ≤ 1 := by
  set S := (vms.map fun vm => vm.getProbability pos).sum with hSdef
  have hS : 0 < S := by
    obtain ⟨vm0, hmem, h0⟩ := hsome
    have hle : vm0.getProbability pos ≤ S := by
      apply List.single_le_sum
      · intro x hx
        obtain ⟨vm, hvm, rfl⟩ := List.mem_map.mp hx
        exact hprob vm hvm
      · exact List.mem_map_of_mem _ hmem
    linarith
  have hHard : tickScales .HARD vms pos =
      vms.map fun vm => vm.getProbability pos / S := by
    simp [tickScales, condScale, rawScale, hSdef]
  have hSoft : tickScales .SOFT vms pos =
      vms.map fun vm =>
        Real.exp (-10 * vm.getDistance pos) * vm.getProbability pos / S := by
    simp [tickScales, condScale, rawScale, hSdef]
  refine ⟨?_, ?_, ?_, ?_⟩
  · intro s hs
    rw [hHard] at hs
    obtain ⟨vm, hvm, rfl⟩ := List.mem_map.mp hs
    exact div_nonneg (hprob vm hvm) hS.le
  · rw [hHard]
    simp only [div_eq_mul_inv]
    rw [List.sum_map_mul_right]
    exact mul_inv_cancel₀ hS.ne'
  · intro s hs
    rw [hSoft] at hs
    obtain ⟨vm, hvm, rfl⟩ := List.mem_map.mp hs
    exact div_nonneg (mul_nonneg (Real.exp_pos _).le (hprob vm hvm)) hS.le
  · rw [hSoft]
    have hterm : (vms.map fun vm =>
        Real.exp (-10 * vm.getDistance pos) * vm.getProbability pos).sum ≤
          S := by
      apply List.sum_le_sum
      intro vm hvm
      have hexp : Real.exp (-10 * vm.getDistance pos) ≤ 1 := by
        apply Real.exp_le_one_iff.mpr
        nlinarith [hdist vm hvm]
      exact mul_le_of_le_one_left (hprob vm hvm) hexp
    simp only [div_eq_mul_inv]
    rw [List.sum_map_mul_right]
    calc (vms.map fun vm =>
        Real.exp (-10 * vm.getDistance pos) * vm.getProbability pos).sum *
          S⁻¹ ≤ S * S⁻¹ :=
          mul_le_mul_of_nonneg_right hterm (inv_nonneg.mpr hS.le)
      _ = 1 := mul_inv_cancel₀ hS.ne'

theorem claim_C1_witness :
    (tickScales .HARD
      [({ getProbability := fun _ => 1, getDistance := fun _ => 0,
          getState := fun _ => 0, getStateDot := fun _ => 0,
          getK := 1, getB := 1 } : VirtualMechanism 1)]
      (fun _ => 0)).sum = 1 ∧
    (tickScales .SOFT
      [({ getProbability := fun _ => 1, getDistance := fun _ => 0,
          getState := fun _ => 0, getStateDot := fun _ => 0,
          getK := 1, getB := 1 } : VirtualMechanism 1)]
      (fun _ => 0)).sum ≤ 1 :=
  ⟨(claim_C1_partition_of_unity _ _
      (by intro vm hvm; rw [List.mem_singleton] at hvm; subst hvm
          show (0 : ℝ) ≤ 1; norm_num)
      (by intro vm hvm; rw [List.mem_singleton] at hvm; subst hvm
          show (0 : ℝ) ≤ 0; norm_num)
      ⟨_, List.mem_singleton.mpr rfl, by show (0 : ℝ) < 1; norm_num⟩).2.1,
   (claim_C1_partition_of_unity _ _
      (by intro vm hvm; rw [List.mem_singleton] at hvm; subst hvm
          show (0 : ℝ) ≤ 1; norm_num)
      (by intro vm hvm; rw [List.mem_singleton] at hvm; subst hvm
          show (0 : ℝ) ≤ 0; norm_num)
      ⟨_, List.mem_singleton.mpr rfl, by show (0 : ℝ) < 1; norm_num⟩).2.2.2⟩

/-- Appending through an `if` in a `foldl` builds the `filterMap` of the
kept elements. -/
theorem foldl_ite_append {α β : Type} (cond : α → Prop)
    [DecidablePred cond] (val : α → β) (l : List α) (acc : List β) :
    l.foldl (fun acc x => if cond x then acc ++ [val x] else acc) acc =
      acc ++ l.filterMap (fun x => if cond x then some (val x) else none) := by
  induction l generalizing acc with
  | nil => simp
  | cons x t ih =>
      by_cases h : cond x <;> simp [h, ih, List.filterMap_cons]

/-- The index pairs `(row i, row i+1)` walked by the `CropData` loop are the
zip of the matrix without its last row and the matrix without its first. -/
theorem range_map_getD_zip (data : List (List ℝ)) :
    (List.range (data.length - 1)).map
      (fun i => (data.getD i [], data.getD (i + 1) [])) =
      data.dropLast.zip data.tail := by
  apply List.ext_getElem
  · simp [List.length_zip, List.length_dropLast, List.length_tail]
  · intro i h1 h2
    have hi : i < data.length - 1 := by simpa using h1
    simp only [List.getElem_map, List.getElem_range, List.getElem_zip,
      List.getElem_dropLast, List.getElem_tail]
    rw [List.getD_eq_getElem _ _ (by omega : i < data.length),
      List.getD_eq_getElem _ _ (by omega : i + 1 < data.length)]

/-- C10: `CropData` keeps row `i` (`0 ≤ i < rows-1`) exactly when
`‖row(i+1) − row(i)‖ > dt*dist_min` — equivalently it filters the pairs of
consecutive rows — so the final row never survives; the returned flag is
`false` exactly when no row survived. -/
theorem claim_C10_cropData (data : List (List ℝ)) (dt dist_min : ℝ)
    (h : data ≠ []) :
    (CropData data dt dist_min).1 =
      (data.dropLast.zip data.tail).filterMap (fun p =>
        if rowNorm (rowSub p.2 p.1) > dt * dist_min then some p.1
        else none) ∧
    ((CropData data dt dist_min).2 = false ↔
      (CropData data dt dist_min).1 = []) := by
  constructor
  · have h1 : (CropData data dt dist_min).1 =
        (List.range (data.length - 1)).filterMap (fun i =>
          if rowNorm (rowSub (data.getD (i + 1) []) (data.getD i [])) >
              dt * dist_min then
            some (data.getD i [])
          else none) := by
      simp only [CropData]
      rw [foldl_ite_append]
      simp
    rw [h1, ← range_map_getD_zip, List.filterMap_map]
    rfl
  · simp only [CropData]
    split_ifs with hk
    · exact iff_of_true rfl (List.length_eq_zero.mp hk)
    · refine iff_of_false (by simp) ?_
      intro hcontra
      exact hk (by rw [hcontra]; rfl)

theorem claim_C10_witness :
    (CropData [[(0 : ℝ)], [1], [2]] (1/10) (1/100)).1 =
      (([[(0 : ℝ)], [1], [2]] : List (List ℝ)).dropLast.zip
        ([[(0 : ℝ)], [1], [2]] : List (List ℝ)).tail).filterMap (fun p =>
          if rowNorm (rowSub p.2 p.1) > (1/10) * (1/100) then some p.1
          else none) ∧
    ((CropData [[(0 : ℝ)], [1], [2]] (1/10) (1/100)).2 = false ↔
      (CropData [[(0 : ℝ)], [1], [2]] (1/10) (1/100)).1 = []) :=
  claim_C10_cropData [[(0 : ℝ)], [1], [2]] (1/10) (1/100) (by simp)

end VirtualFixtures
